import Mathlib

/-!
Verification development for the MT4 WebSocket client library.

The Rust sources are shallowly embedded:

* Byte buffers are `List Nat` (each element intended `< 256`); integers read
  or written little-endian become `Int` (two's complement for `iN`) or `Nat`.
* `f64` values that the code merely transports (read or written as 8 raw
  bytes, never used arithmetically) are modelled by their 64-bit IEEE-754 bit
  patterns as `Nat`.  The two places where the code performs floating-point
  arithmetic are modelled as follows: `TradeRequest.volume * 100.0 as i32`
  (src/types.rs, `TradeRequest::to_bytes`) is carried as the already-converted
  integer field `volumeTimes100`, and `volume_raw as f64 / 100.0`
  (src/types.rs, `Order::from_bytes`) is modelled as exact division in `ℚ`.
* Rust `HashMap`s are association lists with unique keys (`alInsert`
  replaces, `alErase` removes, `alLookup` finds); `Instant` is a `Nat`
  second count, and `Duration::as_secs` is truncated `Nat` subtraction.
* The tokio reader task, the timeout sweeper and `send_trade` become pure
  state-transition functions over the embedded `RequestTracker` state,
  returning the events they emit and the frames (or command ids) they
  enqueue on the writer channel.  The mpsc send that can fail inside
  `send_trade` is modelled by a `sendOk : Bool` parameter.
-/

namespace Mt4

/-! ## Byte-level helpers (little-endian codec, src/types.rs) -/

/-- Byte `i` of a buffer, 0 when out of range (all real accesses are
bounds-guarded in the source). -/
def byteAt (data : List Nat) (i : Nat) : Nat := data.getD i 0

/-- `u32::from_le_bytes` of the four bytes starting at `i`. -/
def readU32 (data : List Nat) (i : Nat) : Nat :=
  byteAt data i + 256 * byteAt data (i+1) + 65536 * byteAt data (i+2) +
    16777216 * byteAt data (i+3)

/-- Reinterpret an unsigned 32-bit value as `i32` (two's complement). -/
def i32OfU32 (n : Nat) : Int :=
  if n < 2147483648 then (n : Int) else (n : Int) - 4294967296

/-- `i32::from_le_bytes` of the four bytes at `i`. -/
def readI32 (data : List Nat) (i : Nat) : Int := i32OfU32 (readU32 data i)

/-- The 8 bytes at `i` as the 64-bit pattern of an `f64` (`f64::from_le_bytes`,
kept as raw bits). -/
def readU64 (data : List Nat) (i : Nat) : Nat :=
  readU32 data i + 4294967296 * readU32 data (i+4)

/-- `x as u8` for an `i32` value: the low byte. -/
def u8OfI32 (x : Int) : Nat := (x % 256).toNat

/-- `write_i16::<LittleEndian>`: two's-complement low 16 bits, 2 bytes LE. -/
def i16le (x : Int) : List Nat :=
  let n := (x % 65536).toNat
  [n % 256, n / 256]

/-- `write_i32::<LittleEndian>`: two's-complement low 32 bits, 4 bytes LE. -/
def i32le (x : Int) : List Nat :=
  let n := (x % 4294967296).toNat
  [n % 256, n / 256 % 256, n / 65536 % 256, n / 16777216]

/-- `write_f64::<LittleEndian>` on a value carried as its bit pattern:
8 bytes LE. -/
def u64le (bits : Nat) : List Nat :=
  [bits % 256, bits / 256 % 256, bits / 65536 % 256, bits / 16777216 % 256,
   bits / 4294967296 % 256, bits / 1099511627776 % 256,
   bits / 281474976710656 % 256, bits / 72057594037927936 % 256]

/-- Copy `bs` into a zeroed field of width `n`: silently truncate to `n`
bytes and NUL-pad the rest (the `len = bytes.len().min(n)` copy in
`TradeRequest::to_bytes`). -/
def padTrunc (n : Nat) (bs : List Nat) : List Nat :=
  bs.take n ++ List.replicate (n - (bs.take n).length) 0

/-- The sub-buffer of `n` bytes starting at `i` (slice `data[i..i+n]`). -/
def seg (data : List Nat) (i n : Nat) : List Nat := (data.drop i).take n

/-- `trim_end_matches('\0')` at the byte level: drop trailing zero bytes. -/
def trimZeros (bs : List Nat) : List Nat :=
  (bs.reverse.dropWhile (fun b => b == 0)).reverse

/-! ## OrderType (src/protocol.rs) -/

/-- Order type (`cmd`), `#[repr(i32)]` values 0..5. -/
inductive OrderType
  | Buy
  | Sell
  | BuyLimit
  | SellLimit
  | BuyStop
  | SellStop
deriving DecidableEq, Repr

/-- `OrderType::from_i32`: only 0..=5 are valid. -/
def OrderType.from_i32 (value : Int) : Option OrderType :=
  if value = 0 then some .Buy
  else if value = 1 then some .Sell
  else if value = 2 then some .BuyLimit
  else if value = 3 then some .SellLimit
  else if value = 4 then some .BuyStop
  else if value = 5 then some .SellStop
  else none

/-- The `repr(i32)` discriminant (also the value of `order_type as i16`). -/
def OrderType.code : OrderType → Int
  | .Buy => 0
  | .Sell => 1
  | .BuyLimit => 2
  | .SellLimit => 3
  | .BuyStop => 4
  | .SellStop => 5

/-! ## Order (src/types.rs) -/

/-- The decoded 161-byte order record.  `symbol`/`comment` keep the raw
bytes after trailing-NUL trimming; `f64` fields that are only transported
keep their bit patterns; `volume` is the exact rational `raw / 100`. -/
structure Order where
  ticket : Int
  symbol : List Nat
  digits : Int
  order_type : OrderType
  volume : ℚ
  open_time : Int
  open_price : Nat
  sl : Nat
  tp : Nat
  close_time : Int
  close_price : Nat
  commission : Nat
  swap : Nat
  profit : Nat
  comment : List Nat
deriving DecidableEq, Repr

/-- `Order::from_bytes(data, offset)`: needs 161 bytes starting at `offset`;
all reads little-endian at the fixed offsets of the record; an out-of-range
order-type word falls back to `Buy` (`unwrap_or(OrderType::Buy)`). -/
def Order.from_bytes (data : List Nat) (offset : Nat) : Option Order :=
  if data.length < offset + 161 then none
  else some {
    ticket := readI32 data offset
    symbol := trimZeros (seg data (offset+4) 12)
    digits := readI32 data (offset+16)
    order_type := (OrderType.from_i32 (readI32 data (offset+20))).getD OrderType.Buy
    volume := (readI32 data (offset+24) : ℚ) / 100
    open_time := readI32 data (offset+28)
    open_price := readU64 data (offset+36)
    sl := readU64 data (offset+44)
    tp := readU64 data (offset+52)
    close_time := readI32 data (offset+60)
    close_price := readU64 data (offset+93)
    commission := readU64 data (offset+153)
    swap := readU64 data (offset+109)
    profit := readU64 data (offset+101)
    comment := trimZeros (seg data (offset+121) 32) }

/-! ## TradeRequest (src/types.rs) -/

/-- A trade request.  `trade_type` is the `u8` tag (66 Market, 67 Pending,
70 CloseMarket, 71 Modify, 72 Delete); `volumeTimes100` carries the integer
the source computes as `(self.volume * 100.0) as i32`; the three `f64`
prices are carried as bit patterns. -/
structure TradeRequest where
  trade_type : Nat
  order_type : OrderType
  ticket : Int
  symbol : List Nat
  volumeTimes100 : Int
  priceBits : Nat
  slBits : Nat
  tpBits : Nat
  slippage : Int
  comment : List Nat
  expiration : Int
  request_id : Int
deriving DecidableEq, Repr

/-- `TradeRequest::to_bytes`: the 95-byte wire record.  The source fills a
zeroed buffer with non-overlapping writes at offsets 0, 1, 3, 7, 11, 23,
27, 35, 43, 51, 55, 87 and 91, which is exactly this concatenation of
fixed-width chunks. -/
def TradeRequest.to_bytes (r : TradeRequest) : List Nat :=
  [r.trade_type % 256]
  ++ i16le r.order_type.code
  ++ i32le r.ticket
  ++ i32le 0
  ++ padTrunc 12 r.symbol
  ++ i32le r.volumeTimes100
  ++ u64le r.priceBits
  ++ u64le r.slBits
  ++ u64le r.tpBits
  ++ i32le r.slippage
  ++ padTrunc 32 r.comment
  ++ i32le r.expiration
  ++ i32le r.request_id

/-! ## TradeResponse and OrderUpdate (src/types.rs) -/

/-- Command-12 response: header of 24 bytes then trailing 161-byte orders. -/
structure TradeResponse where
  request_id : Int
  status : Int
  price1 : Nat
  price2 : Nat
  orders : List Order
deriving DecidableEq, Repr

/-- `TradeResponse::from_bytes`: `None` below 24 bytes; the while loop over
trailing 161-byte chunks is written as a map over the chunk count. -/
def TradeResponse.from_bytes (data : List Nat) : Option TradeResponse :=
  if data.length < 24 then none
  else some {
    request_id := readI32 data 0
    status := readI32 data 4
    price1 := readU64 data 8
    price2 := readU64 data 16
    orders := (List.range ((data.length - 24) / 161)).filterMap fun i =>
      Order.from_bytes (seg data (24 + i * 161) 161) 0 }

/-- A 185-byte order-update record (command 10). -/
structure OrderUpdate where
  notify_id : Int
  notify_type : Int
  df : Nat
  xh : Nat
  raw_size : Nat
  order : Order
  related_order : Option Order
deriving DecidableEq, Repr

/-- `OrderUpdate::from_bytes(data, offset)`: 185 bytes from `offset`; the
embedded order starts 24 bytes into the slice; `related_order` is always
`None`. -/
def OrderUpdate.from_bytes (data : List Nat) (offset : Nat) : Option OrderUpdate :=
  if data.length < offset + 185 then none
  else
    let slice := seg data offset 185
    match Order.from_bytes slice 24 with
    | none => none
    | some order => some {
        notify_id := readI32 slice 0
        notify_type := readI32 slice 4
        df := readU64 slice 8
        xh := readU64 slice 16
        raw_size := 185
        order := order
        related_order := none }

/-- `OrderUpdate::parse_all`: fixed step 185, `⌊len/185⌋` records. -/
def OrderUpdate.parse_all (data : List Nat) : List OrderUpdate :=
  (List.range (data.length / 185)).filterMap fun i =>
    OrderUpdate.from_bytes data (i * 185)

/-! ## Trade error-code table (src/error.rs) -/

/-- `Mt4Error::from_trade_code`: the message attached to each trade code. -/
def tradeErrorMessage (code : Nat) : String :=
  if code = 0 then "Success"
  else if code = 1 then "Request sent"
  else if code = 2 then "Common error"
  else if code = 3 then "Invalid parameters"
  else if code = 4 then "Server busy"
  else if code = 5 then "Old version"
  else if code = 6 then "No connection"
  else if code = 7 then "Not enough rights"
  else if code = 8 then "Too frequent requests"
  else if code = 64 then "Account disabled"
  else if code = 65 then "Invalid account"
  else if code = 66 then "Public key not found"
  else if code = 128 then "Trade timeout"
  else if code = 129 then "Invalid prices"
  else if code = 130 then "Invalid S/L or T/P"
  else if code = 131 then "Invalid volume"
  else if code = 132 then "Market is closed"
  else if code = 133 then "Trade is disabled"
  else if code = 134 then "Not enough money"
  else if code = 135 then "Price is changed"
  else if code = 136 then "Off quotes"
  else if code = 137 then "Broker is busy"
  else if code = 138 then "Requote"
  else if code = 139 then "Order is locked"
  else if code = 140 then "Only long positions allowed"
  else if code = 141 then "Too many requests"
  else if code = 142 then "Order accepted"
  else if code = 143 then "Order in process"
  else if code = 144 then "Request canceled"
  else if code = 145 then "Modification denied"
  else if code = 146 then "Trade context busy"
  else if code = 147 then "Expiration denied"
  else if code = 148 then "Too many orders"
  else if code = 149 then "Hedge prohibited"
  else if code = 150 then "FIFO rule violated"
  else "Unknown error"

/-! ## Association-list maps (the `HashMap`s of `RequestTracker`) -/

/-- `HashMap::get`. -/
def alLookup {α : Type} (k : Int) : List (Int × α) → Option α
  | [] => none
  | q :: rest => if q.1 = k then some q.2 else alLookup k rest

/-- `HashMap::remove` (removes every entry with key `k`; with unique keys
that is the single entry). -/
def alErase {α : Type} (k : Int) : List (Int × α) → List (Int × α)
  | [] => []
  | q :: rest => if q.1 = k then alErase k rest else q :: alErase k rest

/-- `HashMap::insert` (replace any existing entry for `k`). -/
def alInsert {α : Type} (k : Int) (v : α) (l : List (Int × α)) : List (Int × α) :=
  (k, v) :: alErase k l

/-- The key list of a map. -/
def alKeys {α : Type} (l : List (Int × α)) : List Int := l.map Prod.fst

/-! ## RequestTracker (src/client.rs) -/

/-- A pending trade request (`PendingRequest`), `created_at` in seconds. -/
structure PendingRequest where
  request_id : Int
  request : TradeRequest
  created_at : Nat
  target_ticket : Option Int
deriving DecidableEq, Repr

/-- The two maps of `RequestTracker` (`pending_requests` and
`ticket_locks`); the `next_request_id` counter lives in `ClientState`. -/
structure TrackerState where
  pending : List (Int × PendingRequest)
  locks : List (Int × Int)
deriving DecidableEq, Repr

/-- A fresh tracker: empty maps. -/
def emptyTracker : TrackerState := ⟨[], []⟩

/-- `RequestTracker::is_ticket_locked`. -/
def isTicketLocked (tr : TrackerState) (ticket : Int) : Bool :=
  (alLookup ticket tr.locks).isSome

/-- `RequestTracker::add_pending`: lock the target ticket (when the request
has a non-zero one) and insert the pending entry. -/
def addPending (tr : TrackerState) (request : TradeRequest) (now : Nat) : TrackerState :=
  let request_id := request.request_id
  let target_ticket : Option Int := if request.ticket ≠ 0 then some request.ticket else none
  let locks := match target_ticket with
    | some t => alInsert t request_id tr.locks
    | none => tr.locks
  let p : PendingRequest := ⟨request_id, request, now, target_ticket⟩
  ⟨alInsert request_id p tr.pending, locks⟩

/-- `RequestTracker::confirm`: remove the pending entry and release its
ticket lock only when the lock is still held by this `request_id`. -/
def confirmTracker (tr : TrackerState) (request_id : Int) :
    TrackerState × Option PendingRequest :=
  match alLookup request_id tr.pending with
  | none => (tr, none)
  | some p =>
    let pending := alErase request_id tr.pending
    let locks := match p.target_ticket with
      | some t => if alLookup t tr.locks = some request_id then alErase t tr.locks else tr.locks
      | none => tr.locks
    (⟨pending, locks⟩, some p)

/-- The removal loop of `RequestTracker::remove_timed_out`: for each
timed-out id remove the pending entry, conditionally release its lock, and
collect it. -/
def sweepLoop : List Int → TrackerState → TrackerState × List PendingRequest
  | [], tr => (tr, [])
  | id :: rest, tr =>
    match alLookup id tr.pending with
    | none => sweepLoop rest tr
    | some p =>
      let pending := alErase id tr.pending
      let locks := match p.target_ticket with
        | some t => if alLookup t tr.locks = some id then alErase t tr.locks else tr.locks
        | none => tr.locks
      let r := sweepLoop rest ⟨pending, locks⟩
      (r.1, p :: r.2)

/-- `RequestTracker::remove_timed_out`: collect the ids whose age reached
`timeout_secs` and drain them. -/
def removeTimedOut (tr : TrackerState) (now timeout_secs : Nat) :
    TrackerState × List PendingRequest :=
  let timed_out :=
    (tr.pending.filter fun q => decide (timeout_secs ≤ now - q.2.created_at)).map Prod.fst
  sweepLoop timed_out tr

/-- `RequestTracker::clear`. -/
def clearTracker : TrackerState := emptyTracker

/-! ## Events (src/client.rs, `Mt4Event`) -/

/-- The client event stream (payloads the claims need; `AccountInfo`'s
decoded record is not inspected by any claim and is elided). -/
inductive Event
  | connected
  | authenticated
  | authFailed (code : Nat)
  | accountInfo
  | orderUpdates (updates : List OrderUpdate)
  | positionsSnapshot (orders : List Order)
  | historyOrders (orders : List Order)
  | tradeSuccess (request_id : Int) (status : Int)
  | tradeFailed (code : Nat) (message : String)
  | tradeTimeout (request_id : Int) (request : TradeRequest) (elapsed : Nat)
  | disconnected
  | errorEvent (message : String)
  | pong
  | rawMessage (command : Nat) (error_code : Nat) (data : List Nat)
deriving DecidableEq, Repr

/-! ## The command-12 handler and the reader dispatch (src/client.rs) -/

/-- The command-12 arm of the reader: decode the `TradeResponse`, confirm
the pending request by its `request_id`, and decide the outcome from
`response.status` alone; a nonzero frame-level `error_code` only logs a
warning.  The `else` branch is the fallback for a payload shorter than 24
bytes. -/
def handleTradeResponse (tr : TrackerState) (error_code : Nat) (msg_data : List Nat) :
    TrackerState × List Event :=
  match TradeResponse.from_bytes msg_data with
  | some response =>
    let tr1 := (confirmTracker tr response.request_id).1
    if 2 ≤ response.status then
      (tr1, [Event.tradeFailed (u8OfI32 response.status)
               (tradeErrorMessage (u8OfI32 response.status))])
    else
      (tr1, [Event.tradeSuccess response.request_id response.status])
  | none =>
    let request_id := if 4 ≤ msg_data.length then readI32 msg_data 0 else 0
    let status := if 8 ≤ msg_data.length then readI32 msg_data 4 else 0
    let tr1 := if request_id ≠ 0 then (confirmTracker tr request_id).1 else tr
    if 2 ≤ status then
      (tr1, [Event.tradeFailed (u8OfI32 status) (tradeErrorMessage (u8OfI32 status))])
    else
      (tr1, [Event.tradeSuccess request_id status])

/-- The auth flags of the reader task (`pending_auth`, `password_sent`)
together with the shared tracker. -/
structure ReaderState where
  pending_auth : Bool
  password_sent : Bool
  tracker : TrackerState
deriving DecidableEq, Repr

/-- Reader state at connect time. -/
def initReader : ReaderState := ⟨true, false, emptyTracker⟩

/-- The `⌊len/161⌋`-record order-list parse shared by the command-4 and
command-5 arms. -/
def parse161Orders (data : List Nat) : List Order :=
  (List.range (data.length / 161)).filterMap fun i => Order.from_bytes data (i * 161)

/-- `AccountInfo::from_bytes` succeeds exactly on buffers of at least 260
bytes (every inner read below that bound is defaulted with `unwrap_or`);
only this success condition is needed by the reader dispatch. -/
def accountInfoParses (data : List Nat) : Bool := decide (260 ≤ data.length)

/-- One step of the reader task's match on a decrypted frame
`(command, error_code, msg_data)`.  Returns the new state, the events sent
on the event channel, and the command ids of the frames enqueued on the
writer channel (command 1 = password, command 4 = current positions). -/
def handleFrame (rs : ReaderState) (command : Nat) (error_code : Nat)
    (msg_data : List Nat) : ReaderState × List Event × List Nat :=
  if command = 0 ∧ rs.pending_auth = true ∧ rs.password_sent = false then
    ({ rs with password_sent := true }, [], [1])
  else if command = 1 then
    if error_code = 0 then
      ({ rs with pending_auth := false }, [Event.authenticated], [])
    else
      (rs, [Event.authFailed error_code], [])
  else if command = 3 then
    if accountInfoParses msg_data then
      (rs, [Event.accountInfo], [4])
    else
      (rs, [Event.rawMessage command error_code msg_data], [])
  else if command = 4 then
    (rs, [Event.positionsSnapshot (parse161Orders msg_data)], [])
  else if command = 5 then
    if msg_data.isEmpty then (rs, [], [])
    else
      let history := parse161Orders msg_data
      if history.isEmpty then (rs, [], []) else (rs, [Event.historyOrders history], [])
  else if command = 10 then
    let updates := OrderUpdate.parse_all msg_data
    if updates.isEmpty then (rs, [], []) else (rs, [Event.orderUpdates updates], [])
  else if command = 12 then
    let r := handleTradeResponse rs.tracker error_code msg_data
    ({ rs with tracker := r.1 }, r.2, [])
  else if command = 51 then
    (rs, [Event.pong], [])
  else
    (rs, [Event.rawMessage command error_code msg_data], [])

/-- The reader loop over a list of decrypted frames: there is no break or
return in any arm, so every frame is dispatched in order. -/
def runReader (rs : ReaderState) :
    List (Nat × Nat × List Nat) → ReaderState × List Event × List Nat
  | [] => (rs, [], [])
  | f :: rest =>
    let r1 := handleFrame rs f.1 f.2.1 f.2.2
    let r2 := runReader r1.1 rest
    (r2.1, r1.2.1 ++ r2.2.1, r1.2.2 ++ r2.2.2)

/-! ## The timeout sweeper (src/client.rs, connect step 9) -/

/-- `TIMEOUT_SECS` of the sweeper task. -/
def TIMEOUT_SECS : Nat := 180

/-- `CHECK_INTERVAL_SECS`: the sweeper ticks every 5 seconds. -/
def CHECK_INTERVAL_SECS : Nat := 5

/-- The per-request events of one sweep: `TradeTimeout` then
`TradeFailed{128, "Trade timeout"}`, in drain order. -/
def emitTimeoutEvents (now : Nat) : List PendingRequest → List Event
  | [] => []
  | p :: rest =>
    Event.tradeTimeout p.request_id p.request (now - p.created_at)
      :: Event.tradeFailed 128 "Trade timeout"
      :: emitTimeoutEvents now rest

/-- One tick of the sweeper task: drain everything older than
`TIMEOUT_SECS` and emit the two events for each drained request. -/
def sweeperTick (tr : TrackerState) (now : Nat) : TrackerState × List Event :=
  let r := removeTimedOut tr now TIMEOUT_SECS
  (r.1, emitTimeoutEvents now r.2)

/-! ## send_trade (src/client.rs, `Mt4Client::send_trade`) -/

/-- The client-side state `send_trade` touches: the id counter plus the
tracker maps. -/
structure ClientState where
  nextId : Int
  tracker : TrackerState
deriving DecidableEq, Repr

/-- A fresh client: counter at 1000 (`B.GH = 1000`), empty tracker. -/
def freshClient : ClientState := ⟨1000, emptyTracker⟩

/-- `Mt4Client::send_trade`.  Allocates the id first (so the counter moves
even on the duplicate path), rejects when the target ticket is locked,
otherwise adds the pending entry and sends; `sendOk = false` models a
failing writer-channel send, after which the entry is rolled back with
`confirm`.  Returns the new state, the outbound frames (the encoded
95-byte payloads) and `some (request_id, is_duplicate)` or `none` for the
error return. -/
def sendTrade (cs : ClientState) (request : TradeRequest) (now : Nat) (sendOk : Bool) :
    ClientState × List (List Nat) × Option (Int × Bool) :=
  let request_id := cs.nextId
  let cs1 : ClientState := ⟨cs.nextId + 1, cs.tracker⟩
  let request := { request with request_id := request_id }
  if request.ticket ≠ 0 ∧ isTicketLocked cs1.tracker request.ticket = true then
    (cs1, [], some (request_id, true))
  else
    let tr1 := addPending cs1.tracker request now
    if sendOk then
      (⟨cs1.nextId, tr1⟩, [TradeRequest.to_bytes request], some (request_id, false))
    else
      (⟨cs1.nextId, (confirmTracker tr1 request_id).1⟩, [], none)

/-! ## Tracker operation sequences (for the state invariant) -/

/-- The tracker mutations reachable from outside: `add_pending`,
`confirm`, `remove_timed_out` (with the sweeper's timeout) and `clear`. -/
inductive TrackerOp
  | add (request : TradeRequest) (now : Nat)
  | confirmReq (request_id : Int)
  | sweep (now : Nat)
  | clearAll
deriving DecidableEq, Repr

/-- Apply one tracker operation. -/
def applyOp (tr : TrackerState) : TrackerOp → TrackerState
  | .add request now => addPending tr request now
  | .confirmReq id => (confirmTracker tr id).1
  | .sweep now => (removeTimedOut tr now TIMEOUT_SECS).1
  | .clearAll => clearTracker

/-- Apply a sequence of tracker operations. -/
def applyOps (tr : TrackerState) (ops : List TrackerOp) : TrackerState :=
  ops.foldl applyOp tr

/-- Along this run every `add_pending` uses a request id that is not
already pending — the discipline guaranteed by the monotonic
`next_request_id` allocator in `send_trade`. -/
def freshRun (tr : TrackerState) : List TrackerOp → Bool
  | [] => true
  | op :: rest =>
    (match op with
     | .add request _ => (alLookup request.request_id tr.pending).isNone
     | _ => true) && freshRun (applyOp tr op) rest

/-- Every lock entry `(t, r)` is justified by a pending request `r` whose
target ticket is `t`. -/
def LocksWf (tr : TrackerState) : Prop :=
  ∀ t r, alLookup t tr.locks = some r →
    ∃ p, alLookup r tr.pending = some p ∧ p.target_ticket = some t

/-- The tracker invariant: unique keys on both maps and well-formed locks. -/
def TrackerInv (tr : TrackerState) : Prop :=
  (alKeys tr.pending).Nodup ∧ (alKeys tr.locks).Nodup ∧ LocksWf tr

/-! ## List helper lemmas -/

theorem drop_append_ge {α : Type} (x rest : List α) (k : Nat) (h : x.length ≤ k) :
    (x ++ rest).drop k = rest.drop (k - x.length) := by
  induction x generalizing k with
  | nil => simp
  | cons a xs ih =>
    cases k with
    | zero => simp at h
    | succ k' =>
      simp only [List.cons_append, List.drop_succ_cons, List.length_cons]
      rw [ih k' (by simpa using h)]
      congr 1
      omega

theorem take_append_len {α : Type} (x rest : List α) (n : Nat) (h : x.length = n) :
    (x ++ rest).take n = x := by
  induction x generalizing n with
  | nil => simp at h; simp [h]
  | cons a xs ih =>
    cases n with
    | zero => simp at h
    | succ n' =>
      simp only [List.cons_append, List.take_succ_cons, List.cons.injEq, true_and]
      exact ih n' (by simpa using h)

theorem seg_append_skip (x rest : List Nat) (k n : Nat) (h : x.length ≤ k) :
    seg (x ++ rest) k n = seg rest (k - x.length) n := by
  simp [seg, drop_append_ge x rest k h]

theorem seg_zero_take (x rest : List Nat) (n : Nat) (h : x.length = n) :
    seg (x ++ rest) 0 n = x := by
  simp [seg, take_append_len x rest n h]

theorem seg_all (x : List Nat) (n : Nat) (h : x.length = n) : seg x 0 n = x := by
  simp [seg, ← h]

@[simp] theorem i16le_length (x : Int) : (i16le x).length = 2 := rfl

@[simp] theorem i32le_length (x : Int) : (i32le x).length = 4 := rfl

@[simp] theorem u64le_length (b : Nat) : (u64le b).length = 8 := rfl

@[simp] theorem padTrunc_length (n : Nat) (bs : List Nat) : (padTrunc n bs).length = n := by
  simp only [padTrunc, List.length_append, List.length_replicate, List.length_take]
  omega

/-! ## Association-list lemmas -/

theorem alLookup_alErase {α : Type} (k k' : Int) (l : List (Int × α)) :
    alLookup k (alErase k' l) = if k = k' then none else alLookup k l := by
  induction l with
  | nil => simp [alErase, alLookup]
  | cons q rest ih =>
    simp only [alErase]
    by_cases hq : q.1 = k'
    · rw [if_pos hq, ih]
      by_cases hk : k = k'
      · simp [hk]
      · have hqk : q.1 ≠ k := by rw [hq]; exact fun h => hk h.symm
        simp [hk, alLookup, hqk]
    · rw [if_neg hq]
      by_cases hqk : q.1 = k
      · have hk : k ≠ k' := by rw [← hqk]; exact hq
        simp [alLookup, hqk, hk]
      · simp [alLookup, hqk, ih]

theorem alLookup_alInsert {α : Type} (k k' : Int) (v : α) (l : List (Int × α)) :
    alLookup k (alInsert k' v l) = if k = k' then some v else alLookup k l := by
  simp only [alInsert, alLookup]
  by_cases hk : k = k'
  · simp [hk]
  · have : k' ≠ k := fun h => hk h.symm
    simp [this, hk, alLookup_alErase]

theorem alErase_of_lookup_none {α : Type} (k : Int) (l : List (Int × α))
    (h : alLookup k l = none) : alErase k l = l := by
  induction l with
  | nil => rfl
  | cons q rest ih =>
    simp only [alLookup] at h
    by_cases hq : q.1 = k
    · simp [hq] at h
    · simp only [if_neg hq] at h
      simp [alErase, hq, ih h]

theorem alErase_idem {α : Type} (k : Int) (l : List (Int × α)) :
    alErase k (alErase k l) = alErase k l := by
  apply alErase_of_lookup_none
  simp [alLookup_alErase]

theorem alErase_alInsert_self {α : Type} (k : Int) (v : α) (l : List (Int × α)) :
    alErase k (alInsert k v l) = alErase k l := by
  simp [alInsert, alErase, alErase_idem]

theorem alLookup_mem {α : Type} {k : Int} {v : α} {l : List (Int × α)}
    (h : alLookup k l = some v) : (k, v) ∈ l := by
  induction l with
  | nil => simp [alLookup] at h
  | cons q rest ih =>
    simp only [alLookup] at h
    by_cases hq : q.1 = k
    · rw [if_pos hq] at h
      have hqv : q = (k, v) := by
        cases q
        simp_all
      rw [hqv]
      exact List.mem_cons_self _ _
    · rw [if_neg hq] at h
      exact List.mem_cons_of_mem _ (ih h)

theorem alLookup_none_iff {α : Type} (k : Int) (l : List (Int × α)) :
    alLookup k l = none ↔ k ∉ alKeys l := by
  induction l with
  | nil => simp [alLookup, alKeys]
  | cons q rest ih =>
    simp only [alLookup, alKeys, List.map_cons, List.mem_cons]
    by_cases hq : q.1 = k
    · simp [hq]
    · have : k ≠ q.1 := fun h => hq h.symm
      simp [hq, this, ih, alKeys]

theorem mem_alKeys_of_lookup {α : Type} {k : Int} {v : α} {l : List (Int × α)}
    (h : alLookup k l = some v) : k ∈ alKeys l := by
  by_contra hk
  rw [← alLookup_none_iff] at hk
  rw [h] at hk
  exact Option.noConfusion hk

theorem lookup_of_mem_of_keysNodup {α : Type} {k : Int} {v : α} {l : List (Int × α)}
    (hnd : (alKeys l).Nodup) (hm : (k, v) ∈ l) : alLookup k l = some v := by
  induction l with
  | nil => simp at hm
  | cons q rest ih =>
    simp only [alKeys, List.map_cons, List.nodup_cons] at hnd
    rcases List.mem_cons.mp hm with heq | hmem
    · rw [← heq]
      simp [alLookup]
    · have hq : q.1 ≠ k := by
        intro h
        exact hnd.1 (h ▸ (List.mem_map.mpr ⟨(k, v), hmem, rfl⟩))
      simp only [alLookup, if_neg hq]
      exact ih hnd.2 hmem

theorem alErase_sublist {α : Type} (k : Int) (l : List (Int × α)) :
    (alErase k l).Sublist l := by
  induction l with
  | nil => simp [alErase]
  | cons q rest ih =>
    by_cases hq : q.1 = k
    · simp only [alErase, if_pos hq]
      exact ih.cons q
    · simp only [alErase, if_neg hq]
      exact ih.cons₂ q

theorem keysNodup_alErase {α : Type} (k : Int) {l : List (Int × α)}
    (hnd : (alKeys l).Nodup) : (alKeys (alErase k l)).Nodup :=
  ((alErase_sublist k l).map Prod.fst).nodup hnd

theorem keysNodup_alInsert {α : Type} (k : Int) (v : α) {l : List (Int × α)}
    (hnd : (alKeys l).Nodup) : (alKeys (alInsert k v l)).Nodup := by
  simp only [alInsert, alKeys, List.map_cons, List.nodup_cons]
  constructor
  · intro hmem
    rcases List.mem_map.mp hmem with ⟨q, hq, hfst⟩
    have : alLookup k (alErase k l) = some q.2 := by
      apply lookup_of_mem_of_keysNodup (keysNodup_alErase k hnd)
      cases q
      simp_all
    rw [alLookup_alErase] at this
    simp at this
  · exact keysNodup_alErase k hnd

theorem seg_cons_skip (a : Nat) (l : List Nat) (k n : Nat) (h : 1 ≤ k) :
    seg (a :: l) k n = seg l (k - 1) n := by
  cases k with
  | zero => omega
  | succ k' => simp [seg]

/-! ## C1: TradeRequest wire layout -/

/-- Claim C1: `TradeRequest::to_bytes` returns exactly 95 bytes with
`trade_type` at offset 0, `order_type` (i16 LE) at 1, `ticket` (i32) at 3,
a reserved zero u32 at 7, the NUL-padded 12-byte symbol at 11,
`volume*100` as i32 at 23, the three f64 prices at 27, 35 and 43,
`slippage` (i32) at 51, the NUL-padded 32-byte comment at 55,
`expiration` (i32) at 87, and `request_id` as i32 LE at offset 91. -/
theorem tradeRequest_layout (r : TradeRequest) :
    (TradeRequest.to_bytes r).length = 95 ∧
    seg (TradeRequest.to_bytes r) 0 1 = [r.trade_type % 256] ∧
    seg (TradeRequest.to_bytes r) 1 2 = i16le r.order_type.code ∧
    seg (TradeRequest.to_bytes r) 3 4 = i32le r.ticket ∧
    seg (TradeRequest.to_bytes r) 7 4 = i32le 0 ∧
    seg (TradeRequest.to_bytes r) 11 12 = padTrunc 12 r.symbol ∧
    seg (TradeRequest.to_bytes r) 23 4 = i32le r.volumeTimes100 ∧
    seg (TradeRequest.to_bytes r) 27 8 = u64le r.priceBits ∧
    seg (TradeRequest.to_bytes r) 35 8 = u64le r.slBits ∧
    seg (TradeRequest.to_bytes r) 43 8 = u64le r.tpBits ∧
    seg (TradeRequest.to_bytes r) 51 4 = i32le r.slippage ∧
    seg (TradeRequest.to_bytes r) 55 32 = padTrunc 32 r.comment ∧
    seg (TradeRequest.to_bytes r) 87 4 = i32le r.expiration ∧
    seg (TradeRequest.to_bytes r) 91 4 = i32le r.request_id := by
  unfold TradeRequest.to_bytes
  refine ⟨by simp, by simp [seg, -List.singleton_append], ?_, ?_, ?_, ?_, ?_, ?_, ?_, ?_,
    ?_, ?_, ?_, ?_⟩ <;>
    simp [seg_cons_skip, seg_append_skip, seg_zero_take, seg_all, -List.singleton_append]

/-! ## C8 and C9: Order record decoding -/

/-- Claim C8: on any buffer holding 161 bytes from `offset`,
`Order::from_bytes` reads every field little-endian at the fixed offsets of
the record — ticket 0, symbol 4, digits 16, order type 20, raw volume 24
(exposed as `raw/100`), open time 28, open price 36, sl 44, tp 52,
close time 60, close price 93, profit 101, swap 109, comment 121,
commission 153. -/
theorem order_from_bytes_layout (data : List Nat) (offset : Nat)
    (h : offset + 161 ≤ data.length) :
    (Order.from_bytes data offset).map Order.ticket = some (readI32 data offset) ∧
    (Order.from_bytes data offset).map Order.symbol =
      some (trimZeros (seg data (offset+4) 12)) ∧
    (Order.from_bytes data offset).map Order.digits = some (readI32 data (offset+16)) ∧
    (Order.from_bytes data offset).map Order.order_type =
      some ((OrderType.from_i32 (readI32 data (offset+20))).getD OrderType.Buy) ∧
    (Order.from_bytes data offset).map Order.volume =
      some ((readI32 data (offset+24) : ℚ) / 100) ∧
    (Order.from_bytes data offset).map Order.open_time = some (readI32 data (offset+28)) ∧
    (Order.from_bytes data offset).map Order.open_price = some (readU64 data (offset+36)) ∧
    (Order.from_bytes data offset).map Order.sl = some (readU64 data (offset+44)) ∧
    (Order.from_bytes data offset).map Order.tp = some (readU64 data (offset+52)) ∧
    (Order.from_bytes data offset).map Order.close_time = some (readI32 data (offset+60)) ∧
    (Order.from_bytes data offset).map Order.close_price = some (readU64 data (offset+93)) ∧
    (Order.from_bytes data offset).map Order.profit = some (readU64 data (offset+101)) ∧
    (Order.from_bytes data offset).map Order.swap = some (readU64 data (offset+109)) ∧
    (Order.from_bytes data offset).map Order.comment =
      some (trimZeros (seg data (offset+121) 32)) ∧
    (Order.from_bytes data offset).map Order.commission =
      some (readU64 data (offset+153)) := by
  unfold Order.from_bytes
  rw [if_neg (by omega)]
  refine ⟨rfl, rfl, rfl, rfl, rfl, rfl, rfl, rfl, rfl, rfl, rfl, rfl, rfl, rfl, rfl⟩

set_option maxRecDepth 20000 in
/-- Witness for C8 at a concrete 161-byte buffer. -/
theorem order_from_bytes_layout_witness :
    0 + 161 ≤ (List.replicate 161 0).length ∧
    ((Order.from_bytes (List.replicate 161 0) 0).map Order.open_time =
      some (readI32 (List.replicate 161 0) 28)) :=
  ⟨by decide, (order_from_bytes_layout (List.replicate 161 0) 0 (by decide)).2.2.2.2.2.1⟩

/-- Amended C9: `Order::from_bytes` is total and returns `none` exactly when
fewer than 161 bytes are available from `offset`; a malformed order-type
word does not produce `none` (it falls back to `Buy`, see the
counterexample). -/
theorem order_from_bytes_total_iff (data : List Nat) (offset : Nat) :
    Order.from_bytes data offset = none ↔ data.length < offset + 161 := by
  unfold Order.from_bytes
  by_cases h : data.length < offset + 161 <;> simp [h]

set_option maxRecDepth 20000 in
/-- Counterexample for C9 as stated: a 161-byte record whose order-type
word at offset 20 is 6 (outside 0..=5) is not rejected —
`Order::from_bytes` returns a decoded order with `order_type = Buy`. -/
theorem order_from_bytes_bad_order_type_cex :
    OrderType.from_i32
      (readI32 (List.replicate 20 0 ++ [6, 0, 0, 0] ++ List.replicate 137 0) 20) = none ∧
    (Order.from_bytes (List.replicate 20 0 ++ [6, 0, 0, 0] ++ List.replicate 137 0) 0).isSome
      = true ∧
    (Order.from_bytes (List.replicate 20 0 ++ [6, 0, 0, 0] ++ List.replicate 137 0) 0).map
      Order.order_type = some OrderType.Buy := by
  refine ⟨by decide, by decide, by decide⟩

/-! ## C2: command-12 dispatch -/

/-- Amended C2: on every inbound command-12 frame whose payload decodes as
a `TradeResponse`, the client confirms the pending request identified by
the decoded `request_id` and decides the outcome from `response.status`
alone — `status < 2` (in particular 0 and 1) yields
`TradeSuccess{request_id, status}` and `status ≥ 2` yields `TradeFailed`
whose code is the low byte `status as u8` (equal to `status` only below
256); the frame-level `error_code` never influences the outcome. -/
theorem tradeResponse_status_dispatch (tr : TrackerState) (error_code : Nat)
    (msg_data : List Nat) (resp : TradeResponse)
    (hdec : TradeResponse.from_bytes msg_data = some resp) :
    handleTradeResponse tr error_code msg_data =
      ((confirmTracker tr resp.request_id).1,
       if 2 ≤ resp.status then
         [Event.tradeFailed (u8OfI32 resp.status) (tradeErrorMessage (u8OfI32 resp.status))]
       else
         [Event.tradeSuccess resp.request_id resp.status]) := by
  unfold handleTradeResponse
  rw [hdec]
  by_cases h : 2 ≤ resp.status <;> simp [h]

/-- The decoded all-zero 24-byte trade response. -/
def respW : TradeResponse := ⟨0, 0, 0, 0, []⟩

/-- Witness for C2's theorem at a concrete 24-byte frame. -/
theorem tradeResponse_status_dispatch_witness :
    TradeResponse.from_bytes (List.replicate 24 0) = some respW ∧
    handleTradeResponse emptyTracker 7 (List.replicate 24 0) =
      ((confirmTracker emptyTracker respW.request_id).1,
       if 2 ≤ respW.status then
         [Event.tradeFailed (u8OfI32 respW.status) (tradeErrorMessage (u8OfI32 respW.status))]
       else
         [Event.tradeSuccess respW.request_id respW.status]) :=
  ⟨by decide,
   tradeResponse_status_dispatch emptyTracker 7 (List.replicate 24 0) respW (by decide)⟩

/-- Counterexample for C2 as stated: a response with `status = 258` emits
`TradeFailed` with code 2 (the low byte), not 258 — the claim's
"code equal to status" fails once the status exceeds a byte. -/
theorem tradeResponse_status_truncation_cex :
    (TradeResponse.from_bytes ([232, 3, 0, 0, 2, 1, 0, 0] ++ List.replicate 16 0)).map
      TradeResponse.status = some 258 ∧
    handleTradeResponse emptyTracker 0 ([232, 3, 0, 0, 2, 1, 0, 0] ++ List.replicate 16 0) =
      (emptyTracker, [Event.tradeFailed 2 "Common error"]) ∧
    (258 : Int) ≠ (2 : Int) := by
  refine ⟨by decide, by decide, by decide⟩

/-! ## C4: behaviour after a successful authentication frame -/

/-- Amended C4: on an inbound command-1 frame with `error_code = 0` the
reader emits exactly the `Authenticated` event and enqueues no outbound
frame at all — in particular it does not automatically send command 3, so
a caller who issues no requests observes only `Authenticated` (command 4
is auto-sent only as a reaction to a command-3 reply). -/
theorem auth_success_sends_nothing (rs : ReaderState) (d : List Nat) :
    handleFrame rs 1 0 d = ({ rs with pending_auth := false }, [Event.authenticated], []) := by
  simp [handleFrame]

/-- Counterexample for C4 as stated: feeding the reader a single
authentication-success frame produces no outbound command (no command 3)
and only the `Authenticated` event. -/
theorem auth_success_no_account_request_cex :
    runReader initReader [(1, 0, [])] =
      (⟨false, false, emptyTracker⟩, [Event.authenticated], []) := by
  decide

/-! ## C7: behaviour after a failed authentication frame -/

/-- Amended C7: on an inbound command-1 frame with `error_code ≠ 0` the
reader emits `AuthFailed(code)` but does not change state or stop — the
loop continues and every subsequent frame is still processed, its events
still emitted. -/
theorem auth_failed_reader_continues (rs : ReaderState) (err : Nat) (d : List Nat)
    (frames : List (Nat × Nat × List Nat)) (herr : err ≠ 0) :
    handleFrame rs 1 err d = (rs, [Event.authFailed err], []) ∧
    runReader rs ((1, err, d) :: frames) =
      ((runReader rs frames).1,
       Event.authFailed err :: (runReader rs frames).2.1,
       (runReader rs frames).2.2) := by
  have h1 : handleFrame rs 1 err d = (rs, [Event.authFailed err], []) := by
    simp [handleFrame, herr]
  exact ⟨h1, by simp [runReader, h1]⟩

/-- Witness for C7's theorem: after `AuthFailed(5)` a Pong frame is still
dispatched. -/
theorem auth_failed_reader_continues_witness :
    (5 : Nat) ≠ 0 ∧
    (handleFrame initReader 1 5 [] = (initReader, [Event.authFailed 5], []) ∧
     runReader initReader [(1, 5, []), (51, 0, [])] =
       ((runReader initReader [(51, 0, [])]).1,
        Event.authFailed 5 :: (runReader initReader [(51, 0, [])]).2.1,
        (runReader initReader [(51, 0, [])]).2.2)) :=
  ⟨by decide, auth_failed_reader_continues initReader 5 [] [(51, 0, [])] (by decide)⟩

/-- Counterexample for C7 as stated: after the `AuthFailed(5)` event a
further inbound frame (command 51) is processed and its `Pong` event
emitted, so the session is not closed by the client. -/
theorem auth_failed_terminates_cex :
    (runReader initReader [(1, 5, []), (51, 0, [])]).2.1 =
      [Event.authFailed 5, Event.pong] := by
  decide

/-! ## C3: duplicate suppression in send_trade -/

/-- Claim C3: when the target ticket of a non-zero-ticket request is
already locked, `send_trade` returns `(request_id, duplicate = true)`
without sending a frame and without touching the maps (first conjunct);
consequently two back-to-back submissions for the same non-zero ticket
from a fresh client produce exactly one outbound frame, the first call
getting id 1000 and the second id 1001 because the counter advances even
on the duplicate path (second conjunct). -/
theorem sendTrade_duplicate_suppression :
    (∀ (cs : ClientState) (req : TradeRequest) (now : Nat) (sendOk : Bool),
       req.ticket ≠ 0 → isTicketLocked cs.tracker req.ticket = true →
       sendTrade cs req now sendOk =
         (⟨cs.nextId + 1, cs.tracker⟩, [], some (cs.nextId, true))) ∧
    (∀ (req1 req2 : TradeRequest) (now1 now2 : Nat) (t : Int),
       t ≠ 0 → req1.ticket = t → req2.ticket = t →
       (sendTrade freshClient req1 now1 true).2.2 = some (1000, false) ∧
       (sendTrade freshClient req1 now1 true).2.1.length = 1 ∧
       (sendTrade (sendTrade freshClient req1 now1 true).1 req2 now2 true).2.2 =
         some (1001, true) ∧
       (sendTrade (sendTrade freshClient req1 now1 true).1 req2 now2 true).2.1 = [] ∧
       (sendTrade (sendTrade freshClient req1 now1 true).1 req2 now2 true).1.tracker =
         (sendTrade freshClient req1 now1 true).1.tracker) := by
  constructor
  · intro cs req now sendOk ht hl
    simp [sendTrade, ht, hl]
  · intro req1 req2 now1 now2 t ht h1 h2
    have e1 : sendTrade freshClient req1 now1 true =
        (⟨1001, ⟨[((1000 : Int), ⟨1000, { req1 with request_id := 1000 }, now1, some t⟩)],
          [(t, (1000 : Int))]⟩⟩,
         [TradeRequest.to_bytes { req1 with request_id := 1000 }], some (1000, false)) := by
      simp [sendTrade, freshClient, emptyTracker, isTicketLocked, alLookup, addPending,
        alInsert, alErase, h1, ht]
    have e2 : sendTrade (sendTrade freshClient req1 now1 true).1 req2 now2 true =
        ((⟨1002, (sendTrade freshClient req1 now1 true).1.tracker⟩ : ClientState), [],
          some (1001, true)) := by
      rw [e1]
      simp [sendTrade, isTicketLocked, alLookup_alInsert, h2, ht, alLookup]
    rw [e1] at e2 ⊢
    rw [e2]
    simp

/-- A concrete close-style request targeting the given ticket. -/
def reqC (ticket : Int) : TradeRequest := ⟨70, .Buy, ticket, [], 0, 0, 0, 0, 0, [], 0, 0⟩

/-- Witness for C3 at ticket 42. -/
theorem sendTrade_duplicate_suppression_witness :
    ((42 : Int) ≠ 0 ∧ (reqC 42).ticket = 42 ∧ (reqC 42).ticket = 42) ∧
    ((sendTrade freshClient (reqC 42) 0 true).2.2 = some (1000, false) ∧
     (sendTrade freshClient (reqC 42) 0 true).2.1.length = 1 ∧
     (sendTrade (sendTrade freshClient (reqC 42) 0 true).1 (reqC 42) 1 true).2.2 =
       some (1001, true) ∧
     (sendTrade (sendTrade freshClient (reqC 42) 0 true).1 (reqC 42) 1 true).2.1 = [] ∧
     (sendTrade (sendTrade freshClient (reqC 42) 0 true).1 (reqC 42) 1 true).1.tracker =
       (sendTrade freshClient (reqC 42) 0 true).1.tracker) :=
  ⟨⟨by decide, by decide, by decide⟩,
   sendTrade_duplicate_suppression.2 (reqC 42) (reqC 42) 0 1 42 (by decide) (by decide)
     (by decide)⟩

/-! ## C10: rollback on a failed send -/

theorem confirm_addPending_rollback (tr : TrackerState) (req : TradeRequest) (now : Nat)
    (hfresh : alLookup req.request_id tr.pending = none)
    (hlock : req.ticket ≠ 0 → isTicketLocked tr req.ticket = false) :
    (confirmTracker (addPending tr req now) req.request_id).1 = tr := by
  by_cases ht : req.ticket ≠ 0
  · have hl : alLookup req.ticket tr.locks = none := by
      have h2 := hlock ht
      cases halt : alLookup req.ticket tr.locks with
      | none => rfl
      | some v => rw [isTicketLocked, halt] at h2; simp at h2
    simp [addPending, confirmTracker, ht, alLookup_alInsert, alErase_alInsert_self,
      alErase_of_lookup_none _ _ hfresh, alErase_of_lookup_none _ _ hl]
  · simp [addPending, confirmTracker, ht, alLookup_alInsert, alErase_alInsert_self,
      alErase_of_lookup_none _ _ hfresh]

/-- Claim C10: when the frame send fails inside `send_trade` (`sendOk =
false`), the `confirm` rollback leaves `pending_requests` and
`ticket_locks` exactly as before the call, and no frame goes out.  The
hypothesis is the allocator freshness `send_trade` always has: the id
about to be used is not already pending. -/
theorem sendTrade_failure_rollback (cs : ClientState) (req : TradeRequest) (now : Nat)
    (hfresh : alLookup cs.nextId cs.tracker.pending = none) :
    (sendTrade cs req now false).1.tracker = cs.tracker ∧
    (sendTrade cs req now false).2.1 = [] := by
  unfold sendTrade
  by_cases hd : ¬(req.ticket = 0) ∧ isTicketLocked cs.tracker req.ticket = true
  · simp [hd]
  · have hroll := confirm_addPending_rollback cs.tracker { req with request_id := cs.nextId }
      now (by simpa using hfresh)
      (by
        intro h
        by_contra hc
        simp only [Bool.not_eq_false] at hc
        exact hd ⟨by simpa using h, by simpa using hc⟩)
    simp only [TradeRequest.ticket] at hd ⊢
    simp [hd, hroll]

/-- Witness for C10 from a fresh client. -/
theorem sendTrade_failure_rollback_witness :
    alLookup freshClient.nextId freshClient.tracker.pending = none ∧
    ((sendTrade freshClient (reqC 42) 0 false).1.tracker = freshClient.tracker ∧
     (sendTrade freshClient (reqC 42) 0 false).2.1 = []) :=
  ⟨by decide, sendTrade_failure_rollback freshClient (reqC 42) 0 (by decide)⟩

/-! ## C5: the timeout sweeper -/

theorem sweepLoop_pending_none (ids : List Int) (tr : TrackerState) (k : Int)
    (h : alLookup k tr.pending = none) :
    alLookup k (sweepLoop ids tr).1.pending = none := by
  induction ids generalizing tr with
  | nil => exact h
  | cons id rest ih =>
    simp only [sweepLoop]
    cases hlk : alLookup id tr.pending with
    | none => exact ih tr h
    | some p =>
      apply ih
      simp only [alLookup_alErase]
      by_cases hk : k = id <;> simp [hk, h]

theorem sweepLoop_locks_none (ids : List Int) (tr : TrackerState) (t : Int)
    (h : alLookup t tr.locks = none) :
    alLookup t (sweepLoop ids tr).1.locks = none := by
  induction ids generalizing tr with
  | nil => exact h
  | cons id rest ih =>
    simp only [sweepLoop]
    cases hlk : alLookup id tr.pending with
    | none => exact ih tr h
    | some p =>
      apply ih
      cases htg : p.target_ticket with
      | none => simpa using h
      | some t' =>
        simp only [htg]
        by_cases hc : alLookup t' tr.locks = some id
        · simp only [hc, if_pos rfl, reduceIte, alLookup_alErase]
          by_cases hk : t = t' <;> simp [hk, h]
        · simpa [hc] using h

theorem sweepLoop_removes (ids : List Int) (tr : TrackerState) (id : Int)
    (p : PendingRequest) (hmem : id ∈ ids) (hp : alLookup id tr.pending = some p) :
    alLookup id (sweepLoop ids tr).1.pending = none := by
  induction ids generalizing tr with
  | nil => simp at hmem
  | cons id' rest ih =>
    simp only [sweepLoop]
    by_cases he : id' = id
    · subst he
      rw [hp]
      apply sweepLoop_pending_none
      simp [alLookup_alErase]
    · have hmem' : id ∈ rest := by
        rcases List.mem_cons.mp hmem with h | h
        · exact absurd h.symm he
        · exact h
      cases hlk : alLookup id' tr.pending with
      | none => exact ih tr hmem' hp
      | some p' =>
        apply ih _ hmem'
        simp only [alLookup_alErase]
        have : id ≠ id' := fun h => he h.symm
        simp [this, hp]

theorem sweepLoop_drains (ids : List Int) (tr : TrackerState) (id : Int)
    (p : PendingRequest) (hmem : id ∈ ids) (hp : alLookup id tr.pending = some p) :
    p ∈ (sweepLoop ids tr).2 := by
  induction ids generalizing tr with
  | nil => simp at hmem
  | cons id' rest ih =>
    simp only [sweepLoop]
    by_cases he : id' = id
    · subst he
      rw [hp]
      exact List.mem_cons_self _ _
    · have hmem' : id ∈ rest := by
        rcases List.mem_cons.mp hmem with h | h
        · exact absurd h.symm he
        · exact h
      cases hlk : alLookup id' tr.pending with
      | none => exact ih tr hmem' hp
      | some p' =>
        apply List.mem_cons_of_mem
        apply ih _ hmem'
        simp only [alLookup_alErase]
        have : id ≠ id' := fun h => he h.symm
        simp [this, hp]

theorem sweepLoop_releases (ids : List Int) (tr : TrackerState) (id : Int)
    (p : PendingRequest) (t : Int) (hmem : id ∈ ids)
    (hp : alLookup id tr.pending = some p) (htg : p.target_ticket = some t)
    (hl : alLookup t tr.locks = some id) :
    alLookup t (sweepLoop ids tr).1.locks = none := by
  induction ids generalizing tr with
  | nil => simp at hmem
  | cons id' rest ih =>
    simp only [sweepLoop]
    by_cases he : id' = id
    · subst he
      rw [hp]
      simp only [htg, hl, if_pos rfl, reduceIte]
      apply sweepLoop_locks_none
      simp [alLookup_alErase]
    · have hne : id ≠ id' := fun h => he h.symm
      have hmem' : id ∈ rest := by
        rcases List.mem_cons.mp hmem with h | h
        · exact absurd h.symm he
        · exact h
      cases hlk : alLookup id' tr.pending with
      | none => exact ih tr hmem' hp hl
      | some p' =>
        apply ih _ hmem' ?hp2 ?hl2
        case hp2 =>
          simp only [alLookup_alErase]
          simp [hne, hp]
        case hl2 =>
          cases htg' : p'.target_ticket with
          | none => simpa using hl
          | some t' =>
            simp only [htg']
            by_cases hc : alLookup t' tr.locks = some id'
            · simp only [hc, if_pos rfl, reduceIte, alLookup_alErase]
              have htt : t ≠ t' := by
                intro h
                rw [h, hc] at hl
                have : id' = id := by simpa using hl
                exact hne this.symm
              simp [htt, hl]
            · simpa [hc] using hl

theorem emitTimeoutEvents_decomp (now : Nat) (l : List PendingRequest)
    (p : PendingRequest) (hp : p ∈ l) :
    ∃ l1 l2, emitTimeoutEvents now l =
      l1 ++ (Event.tradeTimeout p.request_id p.request (now - p.created_at)
        :: Event.tradeFailed 128 "Trade timeout" :: l2) := by
  induction l with
  | nil => simp at hp
  | cons q rest ih =>
    rcases List.mem_cons.mp hp with h | h
    · refine ⟨[], emitTimeoutEvents now rest, ?_⟩
      simp [emitTimeoutEvents, h]
    · rcases ih h with ⟨l1, l2, he⟩
      exact ⟨Event.tradeTimeout q.request_id q.request (now - q.created_at)
          :: Event.tradeFailed 128 "Trade timeout" :: l1, l2,
        by simp [emitTimeoutEvents, he]⟩

/-- Claim C5: one tick of the sweeper at time `now` drains every pending
request whose age reached 180 s: the entry leaves the pending map, its
ticket lock is released when still held by the same request id, the event
list contains `TradeTimeout{request_id, request, elapsed}` immediately
followed by `TradeFailed{128, "Trade timeout"}`, and a subsequent
`send_trade` targeting the same ticket is no longer rejected as
duplicate. -/
theorem sweeper_drains_timed_out (tr : TrackerState) (now : Nat) (id : Int)
    (p : PendingRequest) (hp : alLookup id tr.pending = some p)
    (hage : TIMEOUT_SECS ≤ now - p.created_at) :
    TIMEOUT_SECS = 180 ∧ CHECK_INTERVAL_SECS = 5 ∧
    alLookup id (sweeperTick tr now).1.pending = none ∧
    (∀ t, p.target_ticket = some t → alLookup t tr.locks = some id →
       alLookup t (sweeperTick tr now).1.locks = none) ∧
    (∃ l1 l2, (sweeperTick tr now).2 =
       l1 ++ (Event.tradeTimeout p.request_id p.request (now - p.created_at)
         :: Event.tradeFailed 128 "Trade timeout" :: l2)) ∧
    (∀ (ctr : Int) (req : TradeRequest) (now2 : Nat),
       p.target_ticket = some req.ticket → alLookup req.ticket tr.locks = some id →
       (sendTrade ⟨ctr, (sweeperTick tr now).1⟩ req now2 true).2.2 =
         some (ctr, false)) := by
  have hpair : (id, p) ∈ tr.pending := alLookup_mem hp
  have hmem : id ∈
      ((tr.pending.filter fun q => decide (TIMEOUT_SECS ≤ now - q.2.created_at)).map
        Prod.fst) :=
    List.mem_map.mpr ⟨(id, p), List.mem_filter.mpr ⟨hpair, by simpa using hage⟩, rfl⟩
  have hlocknone : ∀ t, p.target_ticket = some t → alLookup t tr.locks = some id →
      alLookup t (sweeperTick tr now).1.locks = none := by
    intro t htg hl
    exact sweepLoop_releases _ tr id p t hmem hp htg hl
  refine ⟨rfl, rfl, sweepLoop_removes _ tr id p hmem hp, hlocknone, ?_, ?_⟩
  · exact emitTimeoutEvents_decomp now _ p (sweepLoop_drains _ tr id p hmem hp)
  · intro ctr req now2 htg hl
    have hnone := hlocknone req.ticket htg hl
    simp [sendTrade, isTicketLocked, hnone]

/-- The timed-out pending entry of the C5 witness. -/
def pW : PendingRequest := ⟨1000, reqC 42, 0, some 42⟩

/-- The C5 witness tracker: one pending request on ticket 42, lock held. -/
def trTimeoutW : TrackerState := ⟨[((1000 : Int), pW)], [((42 : Int), (1000 : Int))]⟩

/-- Witness for C5 at a concrete tracker, 200 s after submission. -/
theorem sweeper_drains_timed_out_witness :
    (alLookup 1000 trTimeoutW.pending = some pW ∧ TIMEOUT_SECS ≤ 200 - pW.created_at) ∧
    (TIMEOUT_SECS = 180 ∧ CHECK_INTERVAL_SECS = 5 ∧
     alLookup 1000 (sweeperTick trTimeoutW 200).1.pending = none ∧
     (∀ t, pW.target_ticket = some t → alLookup t trTimeoutW.locks = some 1000 →
        alLookup t (sweeperTick trTimeoutW 200).1.locks = none) ∧
     (∃ l1 l2, (sweeperTick trTimeoutW 200).2 =
        l1 ++ (Event.tradeTimeout pW.request_id pW.request (200 - pW.created_at)
          :: Event.tradeFailed 128 "Trade timeout" :: l2)) ∧
     (∀ (ctr : Int) (req : TradeRequest) (now2 : Nat),
        pW.target_ticket = some req.ticket →
        alLookup req.ticket trTimeoutW.locks = some 1000 →
        (sendTrade ⟨ctr, (sweeperTick trTimeoutW 200).1⟩ req now2 true).2.2 =
          some (ctr, false))) :=
  ⟨⟨by decide, by decide⟩,
   sweeper_drains_timed_out trTimeoutW 200 1000 pW (by decide) (by decide)⟩


/-! ## C6: the tracker invariant -/

theorem inv_eraseStep (tr : TrackerState) (id : Int) (p : PendingRequest)
    (hlk : alLookup id tr.pending = some p) (hInv : TrackerInv tr) :
    TrackerInv ⟨alErase id tr.pending,
      match p.target_ticket with
      | some t => if alLookup t tr.locks = some id then alErase t tr.locks else tr.locks
      | none => tr.locks⟩ := by
  obtain ⟨hndp, hndl, hwf⟩ := hInv
  refine ⟨keysNodup_alErase id hndp, ?_, ?_⟩
  · cases p.target_ticket with
    | none => exact hndl
    | some t =>
      by_cases hc : alLookup t tr.locks = some id
      · simpa [hc] using keysNodup_alErase t hndl
      · simpa [hc] using hndl
  · intro t' r hl'
    cases htg : p.target_ticket with
    | none =>
      simp only [htg] at hl'
      obtain ⟨p0, hp0, htg0⟩ := hwf t' r hl'
      have hr : r ≠ id := by
        intro h
        rw [h, hlk] at hp0
        cases hp0
        rw [htg] at htg0
        exact Option.noConfusion htg0
      refine ⟨p0, ?_, htg0⟩
      simp [alLookup_alErase, hr, hp0]
    | some t =>
      simp only [htg] at hl'
      by_cases hc : alLookup t tr.locks = some id
      · rw [if_pos hc] at hl'
        rw [alLookup_alErase] at hl'
        by_cases htt : t' = t
        · simp [htt] at hl'
        · rw [if_neg htt] at hl'
          obtain ⟨p0, hp0, htg0⟩ := hwf t' r hl'
          have hr : r ≠ id := by
            intro h
            rw [h, hlk] at hp0
            cases hp0
            rw [htg] at htg0
            exact htt (by simpa using htg0.symm)
          refine ⟨p0, ?_, htg0⟩
          simp [alLookup_alErase, hr, hp0]
      · rw [if_neg hc] at hl'
        obtain ⟨p0, hp0, htg0⟩ := hwf t' r hl'
        have hr : r ≠ id := by
          intro h
          rw [h, hlk] at hp0
          cases hp0
          rw [htg] at htg0
          have : t = t' := by simpa using htg0
          rw [← this] at hl'
          exact hc (by rw [hl', h])
        refine ⟨p0, ?_, htg0⟩
        simp [alLookup_alErase, hr, hp0]

theorem inv_confirmTracker (tr : TrackerState) (id : Int) (hInv : TrackerInv tr) :
    TrackerInv (confirmTracker tr id).1 := by
  unfold confirmTracker
  cases hlk : alLookup id tr.pending with
  | none => exact hInv
  | some p => exact inv_eraseStep tr id p hlk hInv

theorem inv_sweepLoop (ids : List Int) (tr : TrackerState) (hInv : TrackerInv tr) :
    TrackerInv (sweepLoop ids tr).1 := by
  induction ids generalizing tr with
  | nil => exact hInv
  | cons id rest ih =>
    simp only [sweepLoop]
    cases hlk : alLookup id tr.pending with
    | none => exact ih tr hInv
    | some p => exact ih _ (inv_eraseStep tr id p hlk hInv)

theorem inv_addPending (tr : TrackerState) (req : TradeRequest) (now : Nat)
    (hInv : TrackerInv tr)
    (hfresh : alLookup req.request_id tr.pending = none) :
    TrackerInv (addPending tr req now) := by
  obtain ⟨hndp, hndl, hwf⟩ := hInv
  by_cases ht : req.ticket ≠ 0
  · have heq : addPending tr req now =
        ⟨alInsert req.request_id ⟨req.request_id, req, now, some req.ticket⟩ tr.pending,
         alInsert req.ticket req.request_id tr.locks⟩ := by
      simp [addPending, ht]
    rw [heq]
    refine ⟨keysNodup_alInsert _ _ hndp, keysNodup_alInsert _ _ hndl, ?_⟩
    intro t' r hl'
    simp only [alLookup_alInsert] at hl'
    by_cases htt : t' = req.ticket
    · rw [if_pos htt] at hl'
      cases hl'
      refine ⟨⟨req.request_id, req, now, some req.ticket⟩, ?_, by rw [htt]⟩
      simp [alLookup_alInsert]
    · rw [if_neg htt] at hl'
      obtain ⟨p0, hp0, htg0⟩ := hwf t' r hl'
      have hr : r ≠ req.request_id := by
        intro h
        rw [h, hfresh] at hp0
        exact Option.noConfusion hp0
      refine ⟨p0, ?_, htg0⟩
      simp only [alLookup_alInsert]
      simp [hr, hp0]
  · have heq : addPending tr req now =
        ⟨alInsert req.request_id ⟨req.request_id, req, now, none⟩ tr.pending, tr.locks⟩ := by
      simp [addPending, ht]
    rw [heq]
    refine ⟨keysNodup_alInsert _ _ hndp, hndl, ?_⟩
    intro t' r hl'
    obtain ⟨p0, hp0, htg0⟩ := hwf t' r hl'
    have hr : r ≠ req.request_id := by
      intro h
      rw [h, hfresh] at hp0
      exact Option.noConfusion hp0
    refine ⟨p0, ?_, htg0⟩
    simp only [alLookup_alInsert]
    simp [hr, hp0]

theorem inv_emptyTracker : TrackerInv emptyTracker := by
  refine ⟨List.nodup_nil, List.nodup_nil, ?_⟩
  intro t r hl
  simp [alLookup] at hl

theorem inv_applyOp (tr : TrackerState) (op : TrackerOp) (hInv : TrackerInv tr)
    (hfresh : match op with
      | .add req _ => alLookup req.request_id tr.pending = none
      | _ => True) :
    TrackerInv (applyOp tr op) := by
  cases op with
  | add req now => exact inv_addPending tr req now hInv hfresh
  | confirmReq id => exact inv_confirmTracker tr id hInv
  | sweep now => exact inv_sweepLoop _ tr hInv
  | clearAll => exact inv_emptyTracker

theorem inv_run (ops : List TrackerOp) (tr : TrackerState) (hInv : TrackerInv tr)
    (hrun : freshRun tr ops = true) : TrackerInv (applyOps tr ops) := by
  induction ops generalizing tr with
  | nil => exact hInv
  | cons op rest ih =>
    rw [applyOps, List.foldl_cons]
    cases op with
    | add req now =>
      simp only [freshRun, Bool.and_eq_true, Option.isNone_iff_eq_none] at hrun
      exact ih _ (inv_addPending tr req now hInv hrun.1) hrun.2
    | confirmReq id =>
      simp only [freshRun, Bool.and_eq_true] at hrun
      exact ih _ (inv_confirmTracker tr id hInv) hrun.2
    | sweep now =>
      simp only [freshRun, Bool.and_eq_true] at hrun
      exact ih _ (inv_sweepLoop _ tr hInv) hrun.2
    | clearAll =>
      simp only [freshRun, Bool.and_eq_true] at hrun
      exact ih _ inv_emptyTracker hrun.2

theorem locks_length_le (tr : TrackerState) (hInv : TrackerInv tr) :
    tr.locks.length ≤ tr.pending.length := by
  obtain ⟨hndp, hndl, hwf⟩ := hInv
  have hlnd : tr.locks.Nodup := hndl.of_map Prod.fst
  have hvnd : (tr.locks.map Prod.snd).Nodup := by
    refine hlnd.map_on ?_
    intro x hx y hy hxy
    have hlx : alLookup x.1 tr.locks = some x.2 :=
      lookup_of_mem_of_keysNodup hndl (by simpa using hx)
    have hly : alLookup y.1 tr.locks = some y.2 :=
      lookup_of_mem_of_keysNodup hndl (by simpa using hy)
    obtain ⟨px, hpx, htx⟩ := hwf x.1 x.2 hlx
    obtain ⟨py, hpy, hty⟩ := hwf y.1 y.2 hly
    rw [hxy] at hpx
    rw [hpx] at hpy
    cases hpy
    rw [htx] at hty
    have h1 : x.1 = y.1 := by simpa using hty
    have : x = y := Prod.ext h1 hxy
    exact this
  have hsub : (tr.locks.map Prod.snd) ⊆ alKeys tr.pending := by
    intro v hv
    rcases List.mem_map.mp hv with ⟨x, hx, hxv⟩
    have hlx : alLookup x.1 tr.locks = some x.2 :=
      lookup_of_mem_of_keysNodup hndl (by simpa using hx)
    obtain ⟨px, hpx, _⟩ := hwf x.1 x.2 hlx
    rw [← hxv]
    exact mem_alKeys_of_lookup hpx
  have := (List.subperm_of_subset hvnd hsub).length_le
  simpa [alKeys] using this

/-- Amended C6: at every quiescent state reachable by a sequence of
`add_pending`, `confirm`, `remove_timed_out` and `clear` in which each
`add_pending` uses a request id not already pending (as the monotonic
allocator guarantees), each ticket has at most one lock entry, every lock
value is a pending key, and the lock count never exceeds the pending
count. -/
theorem tracker_invariant_fresh_runs (ops : List TrackerOp)
    (hrun : freshRun emptyTracker ops = true) :
    (alKeys (applyOps emptyTracker ops).locks).Nodup ∧
    (∀ t r, alLookup t (applyOps emptyTracker ops).locks = some r →
       r ∈ alKeys (applyOps emptyTracker ops).pending) ∧
    (applyOps emptyTracker ops).locks.length ≤
      (applyOps emptyTracker ops).pending.length := by
  obtain ⟨hndp, hndl, hwf⟩ := inv_run ops emptyTracker inv_emptyTracker hrun
  refine ⟨hndl, ?_, locks_length_le _ ⟨hndp, hndl, hwf⟩⟩
  intro t r hl
  obtain ⟨p0, hp0, _⟩ := hwf t r hl
  exact mem_alKeys_of_lookup hp0

/-- Witness for C6's amended theorem on a small fresh run. -/
theorem tracker_invariant_fresh_runs_witness :
    freshRun emptyTracker [TrackerOp.add (reqC 42) 0, TrackerOp.confirmReq 0] = true ∧
    ((alKeys (applyOps emptyTracker
        [TrackerOp.add (reqC 42) 0, TrackerOp.confirmReq 0]).locks).Nodup ∧
     (∀ t r, alLookup t (applyOps emptyTracker
          [TrackerOp.add (reqC 42) 0, TrackerOp.confirmReq 0]).locks = some r →
        r ∈ alKeys (applyOps emptyTracker
          [TrackerOp.add (reqC 42) 0, TrackerOp.confirmReq 0]).pending) ∧
     (applyOps emptyTracker
        [TrackerOp.add (reqC 42) 0, TrackerOp.confirmReq 0]).locks.length ≤
       (applyOps emptyTracker
        [TrackerOp.add (reqC 42) 0, TrackerOp.confirmReq 0]).pending.length) :=
  ⟨by decide,
   tracker_invariant_fresh_runs [TrackerOp.add (reqC 42) 0, TrackerOp.confirmReq 0]
     (by decide)⟩

/-- A request with id 1000 targeting ticket 42. -/
def reqA : TradeRequest := ⟨70, .Buy, 42, [], 0, 0, 0, 0, 0, [], 0, 1000⟩

/-- A request with the same id 1000 but targeting ticket 43. -/
def reqB : TradeRequest := ⟨70, .Buy, 43, [], 0, 0, 0, 0, 0, [], 0, 1000⟩

/-- Counterexample for C6 as stated (over arbitrary operation sequences):
two `add_pending` calls reusing request id 1000 for different tickets
leave 2 lock entries but only 1 pending entry, and a subsequent `confirm`
leaves a lock value (1000) that is not a pending key. -/
theorem tracker_invariant_cex :
    (applyOps emptyTracker [TrackerOp.add reqA 0, TrackerOp.add reqB 0]).locks.length = 2 ∧
    (applyOps emptyTracker [TrackerOp.add reqA 0, TrackerOp.add reqB 0]).pending.length
      = 1 ∧
    (applyOps emptyTracker [TrackerOp.add reqA 0, TrackerOp.add reqB 0,
       TrackerOp.confirmReq 1000]).locks = [(42, 1000)] ∧
    (applyOps emptyTracker [TrackerOp.add reqA 0, TrackerOp.add reqB 0,
       TrackerOp.confirmReq 1000]).pending = [] := by
  refine ⟨by decide, by decide, by decide, by decide⟩

end Mt4
